import Mathlib

/-!
Shallow embedding of the form-api domain model (Form / Field / field
variants), translated from the TypeScript source. The authoritative draft
is the modular one (form.ts, field.ts, fieldTypes/*): classes become
structures, in-place mutation becomes functions returning the new value,
`throw` becomes `Except.error` (so on an error the original state is,
by construction, unchanged), and JS `undefined`-able properties become
`Option`. JS object aliasing is resolved by id: `removeField(field)` /
`removeChoice(choice)` archive the first member whose id matches the
argument's id, which is exactly the object `findIndex` locates and which,
in the source, is the very object the caller passes.
-/

/-- Opaque string identifier, externally generated (`type ID = string`). -/
abbrev ID := String

/-- The `type` tag of a field: `'text' | 'boolean' | 'select' | 'file'`. -/
inductive FieldType where
  | text
  | boolean
  | select
  | file
deriving DecidableEq, Repr

/-- Source `Field#data` from field.ts: shared field data including the optional
linked-field condition properties. -/
structure FieldData where
  id : ID
  formId : ID
  fieldPropertiesId : ID
  name : String
  label : String
  description : Option String
  archived : Bool
  type : FieldType
  required : Option Bool
  linkedFieldId : Option ID
  hasValue : Option Bool
  matchValueStr : Option String
  matchValueInt : Option Int
  matchValueBool : Option Bool
deriving DecidableEq, Repr

/-- Source `Field#setArchived`: sets archived = true unconditionally. -/
def FieldData.setArchived (f : FieldData) : FieldData :=
  { f with archived := true }

/-- Source `Field#clearLinkedFieldCondition`: unsets linkedFieldId and all four
match-value properties together. -/
def FieldData.clearLinkedFieldCondition (f : FieldData) : FieldData :=
  { f with
    linkedFieldId := none
    hasValue := none
    matchValueBool := none
    matchValueInt := none
    matchValueStr := none }

/-- A JS runtime value passed as the generic `matchValue`; the source
dispatches on `typeof matchValue` (string / number / boolean), so we model
the scalar cases plus `undefined`. -/
inductive MatchValue where
  | str (s : String)
  | num (n : Int)
  | bool (b : Bool)
  | undef
deriving DecidableEq, Repr

/-- JS truthiness of a MatchValue: `""`, `0`, `false`, `undefined` are falsy. -/
def MatchValue.truthy : MatchValue → Bool
  | .str s => s ≠ ""
  | .num n => n ≠ 0
  | .bool b => b
  | .undef => false

/-- Source ternary `matchValue && typeof matchValue === 'number' ? matchValue : undefined`. -/
def MatchValue.condInt (mv : MatchValue) : Option Int :=
  match mv with
  | .num n => if mv.truthy then some n else none
  | _ => none

/-- Source ternary `matchValue && typeof matchValue === 'string' ? matchValue : undefined`. -/
def MatchValue.condStr (mv : MatchValue) : Option String :=
  match mv with
  | .str s => if mv.truthy then some s else none
  | _ => none

/-- Source ternary `matchValue && typeof matchValue === 'boolean' ? matchValue : undefined`. -/
def MatchValue.condBool (mv : MatchValue) : Option Bool :=
  match mv with
  | .bool b => if mv.truthy then some b else none
  | _ => none

/-- Source `FieldConditionOptions`: the condition payload. `hasValue` is an
optional KEY of the payload object: `none` models the key being absent
(so the object spread leaves the field's previous `hasValue` in place),
`some v` models the key present with value `v` (`none` = `undefined`). -/
structure FieldConditionOptions where
  hasValue : Option (Option Bool)
  matchValue : MatchValue
deriving DecidableEq, Repr

/-- Error message thrown by `Field#setLinkedFieldCondition`. -/
def invalidConditionMsg : String :=
  "Cannot set linked field condition on an archived field, or fields in another form"

/-- Source `Field#setLinkedFieldCondition(linkedField, condition)` from field.ts:
rejects a linked field from another form or an archived linked field,
otherwise derives the three match-value properties from the runtime type
and truthiness of `matchValue`, spreads the remaining condition properties
(just `hasValue`, when that key is present) and sets `linkedFieldId`. -/
def FieldData.setLinkedFieldCondition (f : FieldData) (linkedField : FieldData)
    (condition : FieldConditionOptions) : Except String FieldData :=
  if f.formId ≠ linkedField.formId ∨ linkedField.archived then
    Except.error invalidConditionMsg
  else
    Except.ok
      { f with
        linkedFieldId := some linkedField.id
        hasValue :=
          match condition.hasValue with
          | none => f.hasValue
          | some v => v
        matchValueInt := condition.matchValue.condInt
        matchValueStr := condition.matchValue.condStr
        matchValueBool := condition.matchValue.condBool }

/-- Archive (via `arch`) the first element of the list whose id (via
`getId`) equals `targetId`, leaving every other element untouched. This is
the effect of `member.setArchived()` on the object that `findIndex`
locates, observed through the containing array. -/
def archiveFirstBy {α : Type} (getId : α → ID) (arch : α → α) :
    List α → ID → List α
  | [], _ => []
  | a :: rest, targetId =>
    if getId a = targetId then arch a :: rest
    else a :: archiveFirstBy getId arch rest targetId

/-- Source `Form#data` from form.ts. -/
structure FormData where
  id : ID
  title : String
  description : Option String
  archived : Bool
deriving DecidableEq, Repr

/-- Source `Form`: its data record plus the owned, ordered field sequence. -/
structure Form where
  data : FormData
  fields : List FieldData
deriving DecidableEq, Repr

/-- Source `Form#getFieldIndexById`: `findIndex` over the full field sequence. -/
def Form.getFieldIndexById (form : Form) (fieldId : ID) : Option Nat :=
  form.fields.findIdx? (fun f => f.id = fieldId)

/-- Source `Form#hasField`: membership by id (`findIndex !== -1`). -/
def Form.hasField (form : Form) (field : FieldData) : Bool :=
  (form.getFieldIndexById field.id).isSome

/-- Error message thrown by `Form#addField`. -/
def addFieldInvariantMsg : String :=
  "invariant: adding Field to Form, but is already archived"

/-- Source `Form#addField(field)`: rejects an already-archived field, otherwise
appends to the ordered field sequence. -/
def Form.addField (form : Form) (field : FieldData) : Except String Form :=
  if field.archived then Except.error addFieldInvariantMsg
  else Except.ok { form with fields := form.fields ++ [field] }

/-- Error message thrown by `Form#removeField`. -/
def removeFieldNotFoundMsg : String :=
  "Tried to archive Field, does not belong to Form"

/-- Source `Form#removeField(field)` from form.ts: rejects a non-member (by id);
otherwise archives the member field in place and then clears the linked
condition of every field whose `linkedFieldId` equals the removed field's
id. -/
def Form.removeField (form : Form) (field : FieldData) : Except String Form :=
  if form.hasField field then
    let archivedFields :=
      archiveFirstBy FieldData.id FieldData.setArchived form.fields field.id
    Except.ok
      { form with
        fields :=
          archivedFields.map (fun relatedField =>
            if relatedField.linkedFieldId = some field.id then
              relatedField.clearLinkedFieldCondition
            else relatedField) }
  else Except.error removeFieldNotFoundMsg

/-- Source `Form#getFields(options)`: the full sequence when `includeArchived`,
otherwise the non-archived members, preserving insertion order. -/
def Form.getFields (form : Form) (includeArchived : Bool) : List FieldData :=
  if includeArchived then form.fields
  else form.fields.filter (fun field => !field.archived)

/-- Source `SelectFieldChoice#data` from selectField.ts. -/
structure ChoiceData where
  id : ID
  fieldPropertiesId : ID
  label : String
  archived : Bool
deriving DecidableEq, Repr

/-- Source `SelectFieldChoice#setArchived`. -/
def ChoiceData.setArchived (c : ChoiceData) : ChoiceData :=
  { c with archived := true }

/-- Source `SelectField#properties` (`defaultChoiceId?`). -/
structure SelectProperties where
  defaultChoiceId : Option ID
deriving DecidableEq, Repr

/-- Source `SelectField`: base field data, select properties, and the owned,
ordered choice sequence. -/
structure SelectField where
  data : FieldData
  properties : SelectProperties
  choices : List ChoiceData
deriving DecidableEq, Repr

/-- Source `SelectField#getChoiceIndexById`: `findIndex` over the full (including
archived) choice sequence. -/
def SelectField.getChoiceIndexById (f : SelectField) (choiceId : ID) : Option Nat :=
  f.choices.findIdx? (fun choice => choice.id = choiceId)

/-- Source `SelectField#hasChoice`: membership by id. -/
def SelectField.hasChoice (f : SelectField) (choice : ChoiceData) : Bool :=
  (f.getChoiceIndexById choice.id).isSome

/-- Error message thrown by `SelectField#addChoice`. -/
def addChoiceInvariantMsg : String :=
  "invariant: adding SelectFieldChoice to SelectField, but is already archived"

/-- Source `SelectField#addChoice(choice)`: rejects an already-archived choice,
otherwise appends to the ordered choice sequence. -/
def SelectField.addChoice (f : SelectField) (choice : ChoiceData) :
    Except String SelectField :=
  if choice.archived then Except.error addChoiceInvariantMsg
  else Except.ok { f with choices := f.choices ++ [choice] }

/-- Error message thrown by `SelectField#removeChoice`. -/
def removeChoiceNotFoundMsg : String :=
  "Tried to archive SelectChoice, does not belong to SelectField"

/-- Source `SelectField#removeChoice(choice)`: rejects a non-member (by id);
otherwise archives the member choice in place (soft-delete) — the choice
is never removed from the sequence. -/
def SelectField.removeChoice (f : SelectField) (choice : ChoiceData) :
    Except String SelectField :=
  if f.hasChoice choice then
    Except.ok
      { f with
        choices :=
          archiveFirstBy ChoiceData.id ChoiceData.setArchived f.choices choice.id }
  else Except.error removeChoiceNotFoundMsg

/-- Source `SelectField#isValidValue(choiceId)` as literally written in the
source: `return choiceIdx === -1`. -/
def SelectField.isValidValue (f : SelectField) (choiceId : String) : Bool :=
  (f.getChoiceIndexById choiceId).isNone

/-- Source `TextField#properties`. The `format` tag is recorded but not used by
validation in this core. -/
structure TextProperties where
  format : String
  minLength : Option Nat
  maxLength : Option Nat
  placeholder : Option String
  defaultValue : Option String
deriving DecidableEq, Repr

/-- Source `TextField`: base field data plus text properties. -/
structure TextField where
  data : FieldData
  properties : TextProperties
deriving DecidableEq, Repr

/-- Source `TextField#isValidValue(value)`: false when `minLength` is set and the
value is shorter, false when `maxLength` is set and the value is longer,
true otherwise. -/
def TextField.isValidValue (f : TextField) (value : String) : Bool :=
  if (match f.properties.minLength with
      | some minLength => decide (value.length < minLength)
      | none => false) then false
  else if (match f.properties.maxLength with
      | some maxLength => decide (value.length > maxLength)
      | none => false) then false
  else true

/-- Error message thrown by `TextField#setDefault`. -/
def textDefaultInvalidMsg : String :=
  "Cannot set default value for TextField; default does not pass validation"

/-- Source `TextField#setDefault(defaultValue)`: validates through
`isValidValue` and throws before any write when invalid (so
`defaultValue` is left unchanged); otherwise stores the value. -/
def TextField.setDefault (f : TextField) (defaultValue : String) :
    Except String TextField :=
  if ¬ f.isValidValue defaultValue then Except.error textDefaultInvalidMsg
  else
    Except.ok
      { f with properties := { f.properties with defaultValue := some defaultValue } }

/-- When some element of `l` has id `targetId`, `archiveFirstBy` is the
pointwise update of the first such element. -/
theorem archiveFirstBy_eq_set {α : Type} (getId : α → ID) (arch : α → α) :
    ∀ (l : List α) (targetId : ID), l.any (fun a => getId a = targetId) = true →
      ∃ i a, l[i]? = some a ∧ getId a = targetId ∧
        archiveFirstBy getId arch l targetId = l.set i (arch a)
  | [], _, h => by simp at h
  | b :: rest, targetId, h => by
    by_cases hb : getId b = targetId
    · exact ⟨0, b, by simp, hb, by simp [archiveFirstBy, hb]⟩
    · have hrest : rest.any (fun a => getId a = targetId) = true := by
        simpa [List.any_cons, hb] using h
      obtain ⟨i, a, hget, hid, heq⟩ :=
        archiveFirstBy_eq_set getId arch rest targetId hrest
      exact ⟨i + 1, a, by simpa using hget, hid, by simp [archiveFirstBy, hb, heq]⟩

/-- Bridge: `hasField` is membership by id over the field sequence. -/
theorem Form.hasField_eq_any (form : Form) (field : FieldData) :
    form.hasField field = form.fields.any (fun f => f.id = field.id) := by
  rw [Form.hasField, Form.getFieldIndexById, List.findIdx?_isSome]


/-- C3: for every Form and member field F, a successful `removeField(F)`
leaves the Form's data unchanged and the field sequence the same length,
archives F (the member with F's id), clears the linked condition of
exactly those fields whose `linkedFieldId` equals F's id, leaves the
condition state of every other field unchanged, and leaves any field that
neither has F's id nor links to it entirely untouched. -/
theorem removeField_archives_and_clears_exactly_linked (form : Form)
    (field : FieldData) (form' : Form)
    (h : form.removeField field = Except.ok form') :
    form'.data = form.data ∧
    form'.fields.length = form.fields.length ∧
    (∃ (i : Nat) (gOld gNew : FieldData), form.fields[i]? = some gOld ∧
      gOld.id = field.id ∧ form'.fields[i]? = some gNew ∧ gNew.archived = true) ∧
    (∀ (i : Nat) (gOld gNew : FieldData),
      form.fields[i]? = some gOld → form'.fields[i]? = some gNew →
      gNew.id = gOld.id ∧
      (gOld.linkedFieldId = some field.id →
        gNew.linkedFieldId = none ∧ gNew.hasValue = none ∧
        gNew.matchValueStr = none ∧ gNew.matchValueInt = none ∧
        gNew.matchValueBool = none) ∧
      (gOld.linkedFieldId ≠ some field.id →
        gNew.linkedFieldId = gOld.linkedFieldId ∧ gNew.hasValue = gOld.hasValue ∧
        gNew.matchValueStr = gOld.matchValueStr ∧
        gNew.matchValueInt = gOld.matchValueInt ∧
        gNew.matchValueBool = gOld.matchValueBool) ∧
      (gOld.id ≠ field.id → gOld.linkedFieldId ≠ some field.id → gNew = gOld)) := by
  rw [Form.removeField] at h
  by_cases hm : form.hasField field
  · rw [if_pos hm] at h
    injection h with h
    have hany := (Form.hasField_eq_any form field) ▸ hm
    obtain ⟨i, a, hget, hid, heq⟩ :=
      archiveFirstBy_eq_set FieldData.id FieldData.setArchived form.fields field.id hany
    have hi : i < form.fields.length := by
      rw [List.getElem?_eq_some] at hget; exact hget.1
    have hdata : form'.data = form.data := by rw [← h]
    have hfields : form'.fields =
        (form.fields.set i a.setArchived).map (fun relatedField =>
          if relatedField.linkedFieldId = some field.id then
            relatedField.clearLinkedFieldCondition
          else relatedField) := by
      rw [← h, heq]
    refine ⟨hdata, by rw [hfields]; simp, ?_, ?_⟩
    · refine ⟨i, a,
        (if a.setArchived.linkedFieldId = some field.id then
          a.setArchived.clearLinkedFieldCondition
        else a.setArchived), hget, hid, ?_, ?_⟩
      · rw [hfields, List.getElem?_map, List.getElem?_set_eq hi]
        rfl
      · by_cases hl : a.linkedFieldId = some field.id <;>
          simp [hl, FieldData.setArchived, FieldData.clearLinkedFieldCondition]
    · intro j gOld gNew hgOld hgNew
      rw [hfields, List.getElem?_map] at hgNew
      by_cases hij : j = i
      · subst hij
        rw [List.getElem?_set_eq hi] at hgNew
        have haOld : a = gOld := by rw [hget] at hgOld; injection hgOld
        subst haOld
        simp only [Option.map_some'] at hgNew
        injection hgNew with hgNew
        subst hgNew
        constructor
        · by_cases hl : a.linkedFieldId = some field.id <;>
            simp [hl, FieldData.setArchived, FieldData.clearLinkedFieldCondition]
        refine ⟨?_, ?_, ?_⟩
        · intro hl
          simp [FieldData.setArchived, hl, FieldData.clearLinkedFieldCondition]
        · intro hl
          simp [FieldData.setArchived, hl, FieldData.clearLinkedFieldCondition]
        · intro hidne _
          exact absurd hid hidne
      · rw [List.getElem?_set_ne (fun hx => hij hx.symm)] at hgNew
        rw [hgOld, Option.map_some'] at hgNew
        injection hgNew with hgNew
        subst hgNew
        constructor
        · by_cases hl : gOld.linkedFieldId = some field.id <;>
            simp [hl, FieldData.clearLinkedFieldCondition]
        refine ⟨?_, ?_, ?_⟩
        · intro hl
          simp [hl, FieldData.clearLinkedFieldCondition]
        · intro hl
          simp [hl]
        · intro _ hl
          simp [hl]
  · rw [if_neg hm] at h
    cases h

/-- A live text field with no condition set, used as a concrete fixture. -/
def sampleField (i fm : ID) : FieldData :=
  { id := i, formId := fm, fieldPropertiesId := "props", name := "name",
    label := "label", description := none, archived := false,
    type := FieldType.text, required := none, linkedFieldId := none,
    hasValue := none, matchValueStr := none, matchValueInt := none,
    matchValueBool := none }

/-- C4: `setLinkedFieldCondition` fails (raising the cross-scope error,
and hence writing nothing — the update is only built on the success path)
whenever the linked field belongs to another form or is archived, and
otherwise succeeds and sets `linkedFieldId` to the linked field's id. -/
theorem setLinkedFieldCondition_cross_scope_guard (f linkedField : FieldData)
    (condition : FieldConditionOptions) :
    ((f.formId ≠ linkedField.formId ∨ linkedField.archived = true) →
      f.setLinkedFieldCondition linkedField condition =
        Except.error invalidConditionMsg) ∧
    (f.formId = linkedField.formId → linkedField.archived = false →
      ∃ f', f.setLinkedFieldCondition linkedField condition = Except.ok f' ∧
        f'.linkedFieldId = some linkedField.id) := by
  constructor
  · intro hbad
    rw [FieldData.setLinkedFieldCondition, if_pos hbad]
  · intro hform harch
    rw [FieldData.setLinkedFieldCondition, if_neg (by simp [hform, harch])]
    exact ⟨_, rfl, rfl⟩

/-- Closed instance of the C4 guard theorem: same-form live linked field
succeeds, foreign-form linked field fails. -/
theorem setLinkedFieldCondition_cross_scope_guard_witness :
    (∃ f', (sampleField "x" "fm").setLinkedFieldCondition (sampleField "y" "fm")
        { hasValue := none, matchValue := MatchValue.bool true } = Except.ok f' ∧
      f'.linkedFieldId = some "y") ∧
    (sampleField "x" "fm").setLinkedFieldCondition (sampleField "z" "other")
        { hasValue := none, matchValue := MatchValue.bool true } =
      Except.error invalidConditionMsg :=
  ⟨(setLinkedFieldCondition_cross_scope_guard (sampleField "x" "fm")
      (sampleField "y" "fm") { hasValue := none, matchValue := MatchValue.bool true }).2
      rfl rfl,
   (setLinkedFieldCondition_cross_scope_guard (sampleField "x" "fm")
      (sampleField "z" "other") { hasValue := none, matchValue := MatchValue.bool true }).1
      (Or.inl (by decide))⟩

/-- C9: when the condition payload omits the `hasValue` key, a successful
`setLinkedFieldCondition` leaves the field's previous `hasValue` in place,
while the three match-value properties of the result are recomputed from
the new `matchValue` alone (two successful calls on arbitrary different
fields with the same `matchValue` produce identical match-value
properties). -/
theorem setLinkedFieldCondition_keeps_stale_hasValue (f g lf lg : FieldData)
    (mv : MatchValue) (f' g' : FieldData)
    (hf : f.setLinkedFieldCondition lf
      { hasValue := none, matchValue := mv } = Except.ok f')
    (hg : g.setLinkedFieldCondition lg
      { hasValue := none, matchValue := mv } = Except.ok g') :
    f'.hasValue = f.hasValue ∧
    f'.matchValueStr = g'.matchValueStr ∧
    f'.matchValueInt = g'.matchValueInt ∧
    f'.matchValueBool = g'.matchValueBool := by
  rw [FieldData.setLinkedFieldCondition] at hf hg
  split at hf
  · cases hf
  · split at hg
    · cases hg
    · injection hf with hf
      injection hg with hg
      subst hf
      subst hg
      exact ⟨rfl, rfl, rfl, rfl⟩

/-- Closed instance of the C9 theorem: a field whose `hasValue` was
previously set keeps it across a later call that omits the key. -/
theorem setLinkedFieldCondition_keeps_stale_hasValue_witness :
    ∃ f' g', ({ sampleField "x" "fm" with hasValue := some true} :
        FieldData).setLinkedFieldCondition (sampleField "y" "fm")
        { hasValue := none, matchValue := MatchValue.str "v" } = Except.ok f' ∧
      (sampleField "w" "fm").setLinkedFieldCondition (sampleField "y" "fm")
        { hasValue := none, matchValue := MatchValue.str "v" } = Except.ok g' ∧
      f'.hasValue = some true ∧ f'.matchValueStr = g'.matchValueStr :=
  ⟨_, _, rfl, rfl,
    (setLinkedFieldCondition_keeps_stale_hasValue
      { sampleField "x" "fm" with hasValue := some true} (sampleField "w" "fm")
      (sampleField "y" "fm") (sampleField "y" "fm") (MatchValue.str "v") _ _
      rfl rfl).1,
    (setLinkedFieldCondition_keeps_stale_hasValue
      { sampleField "x" "fm" with hasValue := some true} (sampleField "w" "fm")
      (sampleField "y" "fm") (sampleField "y" "fm") (MatchValue.str "v") _ _
      rfl rfl).2.1⟩

/-- C2: the truthiness check `matchValue && typeof matchValue === ...`
silently drops every falsy match value. Setting a condition with
`matchValue = false` stores `matchValueBool = undefined` (not `false`);
likewise `0` and `""` are discarded, contradicting the stated requirement
that falsy match values be retained. -/
theorem setLinkedFieldCondition_drops_falsy_matchValue :
    (∃ r, (sampleField "f1" "form1").setLinkedFieldCondition
        (sampleField "f2" "form1")
        { hasValue := none, matchValue := MatchValue.bool false } = Except.ok r ∧
      r.matchValueBool = none) ∧
    (∃ r, (sampleField "f1" "form1").setLinkedFieldCondition
        (sampleField "f2" "form1")
        { hasValue := none, matchValue := MatchValue.num 0 } = Except.ok r ∧
      r.matchValueInt = none) ∧
    (∃ r, (sampleField "f1" "form1").setLinkedFieldCondition
        (sampleField "f2" "form1")
        { hasValue := none, matchValue := MatchValue.str "" } = Except.ok r ∧
      r.matchValueStr = none) :=
  ⟨⟨_, rfl, rfl⟩, ⟨_, rfl, rfl⟩, ⟨_, rfl, rfl⟩⟩

/-- A live select-field fixture with no choices. -/
def sampleSelect : SelectField :=
  { data := { sampleField "sf" "form1" with type := FieldType.select },
    properties := { defaultChoiceId := none },
    choices := [] }

/-- A live choice fixture. -/
def sampleChoice : ChoiceData :=
  { id := "opt1", fieldPropertiesId := "props", label := "Option 1",
    archived := false }

/-- C1: the inverted-polarity defect, evaluated. The source returns
`choiceIdx === -1`, so a LIVE member choice yields false (the documented
intent — "true iff the id names a live choice of this field" — requires
true) and an id that is no choice at all yields true (intent requires
false). After `removeChoice` archives the choice it is still found by the
id scan, so the archived-choice case yields false — agreeing with the
intent only by accident. -/
theorem selectField_isValidValue_inverted_polarity :
    ∃ f1, sampleSelect.addChoice sampleChoice = Except.ok f1 ∧
      f1.choices = [sampleChoice] ∧
      f1.isValidValue "opt1" = false ∧
      f1.isValidValue "not-a-choice" = true ∧
      ∃ f2, f1.removeChoice sampleChoice = Except.ok f2 ∧
        f2.choices = [{ sampleChoice with archived := true }] ∧
        f2.isValidValue "opt1" = false := by
  refine ⟨_, rfl, ?_, ?_, ?_, _, rfl, ?_, ?_⟩ <;> decide

/-- Form-data fixture. -/
def sampleFormData : FormData :=
  { id := "form1", title := "Title", description := none, archived := false }

/-- Fixture: field linked (by condition) to the field with id "fa". -/
def linkedFixtureField : FieldData :=
  { sampleField "fb" "form1" with
    linkedFieldId := some "fa", hasValue := some true }

/-- Fixture: field linked to the (unrelated) field with id "zz". -/
def otherLinkFixtureField : FieldData :=
  { sampleField "fc" "form1" with
    linkedFieldId := some "zz", matchValueBool := some true }

/-- Fixture form with three fields: "fa", one field linked to "fa", and
one field linked elsewhere. -/
def cascadeForm : Form :=
  { data := sampleFormData,
    fields := [sampleField "fa" "form1", linkedFixtureField,
               otherLinkFixtureField] }

/-- Expected result of removing "fa" from `cascadeForm`: "fa" archived,
the field linked to it cleared, the third field untouched. -/
def cascadeFormAfter : Form :=
  { data := sampleFormData,
    fields := [{ sampleField "fa" "form1" with archived := true },
               { sampleField "fb" "form1" with
                 linkedFieldId := none, hasValue := none },
               otherLinkFixtureField] }

/-- Closed instance of the C3 theorem on `cascadeForm`. -/
theorem removeField_cascade_witness :
    cascadeForm.removeField (sampleField "fa" "form1") =
      Except.ok cascadeFormAfter ∧
    cascadeFormAfter.data = cascadeForm.data ∧
    cascadeFormAfter.fields.length = cascadeForm.fields.length :=
  ⟨by rfl,
   (removeField_archives_and_clears_exactly_linked cascadeForm
      (sampleField "fa" "form1") cascadeFormAfter (by rfl)).1,
   (removeField_archives_and_clears_exactly_linked cascadeForm
      (sampleField "fa" "form1") cascadeFormAfter (by rfl)).2.1⟩

/-- C5 counterexample: `addField` never checks membership, so adding the
very same field twice succeeds and its id then appears twice in the field
sequence — refuting "addField fails with an InvariantError when a field
with f's id is already a member, so no id ever appears twice". -/
theorem addField_duplicate_accepted :
    ∃ form1, (Form.mk sampleFormData []).addField (sampleField "dup" "form1") =
        Except.ok form1 ∧
      form1.hasField (sampleField "dup" "form1") = true ∧
      ∃ form2, form1.addField (sampleField "dup" "form1") = Except.ok form2 ∧
        form2.fields.map FieldData.id = ["dup", "dup"] := by
  refine ⟨_, rfl, ?_, _, rfl, ?_⟩ <;> decide

/-- C5 amended: `addField` fails with the invariant error exactly when the
field is already archived; membership is not checked, and on success the
field is appended to the sequence. -/
theorem addField_rejects_only_archived (form : Form) (field : FieldData) :
    (field.archived = true →
      form.addField field = Except.error addFieldInvariantMsg) ∧
    (field.archived = false →
      form.addField field =
        Except.ok { form with fields := form.fields ++ [field] }) := by
  constructor <;> intro h <;> rw [Form.addField] <;> simp [h]

/-- Closed instance of the C5 amended theorem: an archived field is
rejected, a live one is appended. -/
theorem addField_rejects_only_archived_witness :
    (Form.mk sampleFormData []).addField
        { sampleField "dead" "form1" with archived := true } =
      Except.error addFieldInvariantMsg ∧
    (Form.mk sampleFormData []).addField (sampleField "live" "form1") =
      Except.ok { Form.mk sampleFormData [] with
                  fields := [sampleField "live" "form1"] } :=
  ⟨(addField_rejects_only_archived (Form.mk sampleFormData [])
      { sampleField "dead" "form1" with archived := true }).1 rfl,
   by
    have := (addField_rejects_only_archived (Form.mk sampleFormData [])
      (sampleField "live" "form1")).2 rfl
    simpa using this⟩

/-- C6: `setDefault` validates through `isValidValue` and throws before
any write when the value is invalid (the stored `defaultValue` is only
produced on the success path, so an invalid value leaves it unchanged);
a valid value is stored. A value is invalid exactly when it is shorter
than a set `minLength` or longer than a set `maxLength`. -/
theorem textField_setDefault_validates (f : TextField) (value : String) :
    (f.isValidValue value = false →
      f.setDefault value = Except.error textDefaultInvalidMsg) ∧
    (f.isValidValue value = true →
      f.setDefault value = Except.ok
        { f with properties := { f.properties with defaultValue := some value } }) ∧
    (f.isValidValue value = false ↔
      ((∃ m, f.properties.minLength = some m ∧ value.length < m) ∨
       (∃ m, f.properties.maxLength = some m ∧ value.length > m))) := by
  refine ⟨?_, ?_, ?_⟩
  · intro hbad
    rw [TextField.setDefault, if_pos (by simp [hbad])]
  · intro hok
    rw [TextField.setDefault, if_neg (by simp [hok])]
  · rw [TextField.isValidValue]
    cases hmin : f.properties.minLength <;> cases hmax : f.properties.maxLength <;>
      simp [hmin, hmax] <;> omega

/-- Closed instance of the C6 theorem: with minLength = 3, "ab" is
rejected and "abc" is stored. -/
theorem textField_setDefault_validates_witness :
    ∃ tf : TextField,
      tf.setDefault "ab" = Except.error textDefaultInvalidMsg ∧
      tf.setDefault "abc" = Except.ok
        { tf with properties := { tf.properties with defaultValue := some "abc" } } := by
  refine ⟨{ data := sampleField "t1" "form1",
            properties := { format := "text", minLength := some 3,
                            maxLength := none, placeholder := none,
                            defaultValue := none } }, ?_, ?_⟩
  · exact (textField_setDefault_validates _ "ab").1 (by decide)
  · exact (textField_setDefault_validates _ "abc").2.1 (by decide)

/-- C7: `removeChoice` fails with the not-found error when no choice with
the argument's id is a member; otherwise it succeeds, the field data,
properties and choice-sequence length are untouched, the member choice
with that id is archived in place, and every other position of the
sequence is unchanged — nothing is ever deleted from the sequence. -/
theorem removeChoice_soft_deletes_member (f : SelectField) (choice : ChoiceData) :
    (f.hasChoice choice = false →
      f.removeChoice choice = Except.error removeChoiceNotFoundMsg) ∧
    (f.hasChoice choice = true →
      ∃ f', f.removeChoice choice = Except.ok f' ∧
        f'.data = f.data ∧ f'.properties = f.properties ∧
        f'.choices.length = f.choices.length ∧
        ∃ (i : Nat) (cOld : ChoiceData), f.choices[i]? = some cOld ∧
          cOld.id = choice.id ∧
          f'.choices[i]? = some { cOld with archived := true } ∧
          ∀ (j : Nat), j ≠ i → f'.choices[j]? = f.choices[j]?) := by
  constructor
  · intro hno
    rw [SelectField.removeChoice, if_neg (by simp [hno])]
  · intro hyes
    have hany : f.choices.any (fun c => c.id = choice.id) = true := by
      have h := hyes
      rw [SelectField.hasChoice, SelectField.getChoiceIndexById,
        List.findIdx?_isSome] at h
      exact h
    obtain ⟨i, cOld, hget, hid, heq⟩ :=
      archiveFirstBy_eq_set ChoiceData.id ChoiceData.setArchived f.choices
        choice.id hany
    have hi : i < f.choices.length := by
      rw [List.getElem?_eq_some] at hget; exact hget.1
    rw [SelectField.removeChoice, if_pos hyes, heq]
    refine ⟨_, rfl, rfl, rfl, by simp, i, cOld, hget, hid, ?_, ?_⟩
    · show (f.choices.set i cOld.setArchived)[i]? = some { cOld with archived := true }
      rw [List.getElem?_set_eq hi]
      rfl
    · intro j hj
      show (f.choices.set i cOld.setArchived)[j]? = f.choices[j]?
      rw [List.getElem?_set_ne (fun hx => hj hx.symm)]

/-- Closed instance of the C7 theorem: removing a member choice archives
it in place; removing a non-member fails. -/
theorem removeChoice_soft_deletes_member_witness :
    (∃ f', (SelectField.mk sampleSelect.data sampleSelect.properties
        [sampleChoice]).removeChoice sampleChoice = Except.ok f' ∧
      f'.choices.length = 1) ∧
    sampleSelect.removeChoice sampleChoice =
      Except.error removeChoiceNotFoundMsg := by
  constructor
  · obtain ⟨f', hrun, _, _, hlen, _⟩ :=
      (removeChoice_soft_deletes_member
        (SelectField.mk sampleSelect.data sampleSelect.properties [sampleChoice])
        sampleChoice).2 (by decide)
    exact ⟨f', hrun, hlen⟩
  · exact (removeChoice_soft_deletes_member sampleSelect sampleChoice).1 (by decide)

/-- C8: `getFields` with includeArchived returns the full sequence;
without it, the result is a subsequence of the field sequence (insertion
order preserved) whose members are exactly the non-archived fields. -/
theorem getFields_excludes_archived_preserves_order (form : Form) :
    form.getFields true = form.fields ∧
    (form.getFields false).Sublist form.fields ∧
    (∀ f : FieldData, f ∈ form.getFields false ↔
      f ∈ form.fields ∧ f.archived = false) := by
  refine ⟨rfl, ?_, ?_⟩
  · rw [Form.getFields, if_neg (by simp)]
    exact List.filter_sublist form.fields
  · intro f
    rw [Form.getFields, if_neg (by simp)]
    simp [List.mem_filter]

/-- The given Form with only its `archived` data flag replaced — used to
state that no Form operation reads that flag. -/
def Form.withArchivedFlag (form : Form) (b : Bool) : Form :=
  { form with data := { form.data with archived := b } }

/-- C10: `addField`, `removeField`, `hasField` and `getFields` neither
change the Form's own data record nor read its `archived` flag: flipping
the flag commutes with each operation, so fields can still be added to
and removed from a Form whose `archived` flag is true. -/
theorem form_operations_ignore_form_data (form : Form) (b : Bool)
    (field : FieldData) :
    ((form.withArchivedFlag b).addField field =
      (form.addField field).map (fun r => r.withArchivedFlag b)) ∧
    ((form.withArchivedFlag b).removeField field =
      (form.removeField field).map (fun r => r.withArchivedFlag b)) ∧
    ((form.withArchivedFlag b).hasField field = form.hasField field) ∧
    (∀ includeArchived : Bool,
      (form.withArchivedFlag b).getFields includeArchived =
        form.getFields includeArchived) ∧
    (∀ form', form.addField field = Except.ok form' → form'.data = form.data) ∧
    (∀ form', form.removeField field = Except.ok form' → form'.data = form.data) := by
  refine ⟨?_, ?_, rfl, fun includeArchived => rfl, ?_, ?_⟩
  · rw [Form.addField, Form.addField]
    by_cases h : field.archived <;> simp [h, Form.withArchivedFlag, Except.map]
  · rw [Form.removeField, Form.removeField]
    by_cases h : form.hasField field
    · rw [if_pos h, if_pos (show (form.withArchivedFlag b).hasField field from h)]
      simp [Form.withArchivedFlag, Except.map]
    · rw [if_neg h, if_neg (show ¬(form.withArchivedFlag b).hasField field from h)]
      rfl
  · intro form' h
    rw [Form.addField] at h
    by_cases hb : field.archived
    · rw [if_pos hb] at h; cases h
    · rw [if_neg hb] at h
      injection h with h
      rw [← h]
  · intro form' h
    rw [Form.removeField] at h
    by_cases hb : form.hasField field
    · rw [if_pos hb] at h
      injection h with h
      rw [← h]
    · rw [if_neg hb] at h; cases h

/-- Closed instance of the C10 theorem: a Form whose archived flag is
true still accepts `addField` and `removeField`. -/
theorem form_operations_ignore_form_data_witness :
    ∃ form', (Form.mk { sampleFormData with archived := true } []).addField
        (sampleField "fa" "form1") = Except.ok form' ∧
      form'.data = { sampleFormData with archived := true } := by
  obtain ⟨heq, -⟩ := form_operations_ignore_form_data
    (Form.mk { sampleFormData with archived := true } []) false
    (sampleField "fa" "form1")
  exact ⟨_, rfl, (form_operations_ignore_form_data
    (Form.mk { sampleFormData with archived := true } []) false
    (sampleField "fa" "form1")).2.2.2.2.1 _ rfl⟩
